import Mathlib

/-!
Verification of the `hsm` symbolic-expression library.

This file shallowly embeds the core of the repository:

* the operand tree data model (`AtomicOperand` / `AtomicOperation` /
  `CompoundOperation` from `hsm/algebra/operations/operands.py`, called
  `A` / `O` / `CO` throughout the sources);
* the operator metadata and the node-construction dispatch
  (`Operator.__call__` in `hsm/algebra/operations/operators.py`);
* the representation engine (`PythonReprEngine` with the `join` dispatch
  from `hsm/arith/repr.py` together with the per-operator metadata of
  `hsm/arith/arithmetics.py`);
* the `OpKind`/`Operation` validation and chained rendering of
  `hsm/core.py`;
* the interning factory constructor (`hsm/util/oop.py` and
  `Operator.__new__`), the `errors` module surface, the
  `_setup_swapped_ops` registration hook, and `Symbol.from_string`
  (`hsm/algebra/operations/operands.py`).

The repository contains several parallel drafts of the same subsystem;
where drafts diverge, the embedding follows the draft the specification
declares canonical (the `hsm/algebra` construction algorithm, which is the
only one carrying the `idempotent` metadata, and the
`hsm/arith/repr.py` representation engine, which is the only renderer that
folds all operands of a flat node).  Divergences that decide a claim are
noted at the corresponding theorem.
-/

/-- Payload of an atomic operand: a named symbol with a negation flag
(`Symbol` in `operands.py`) or an integer literal (real numbers in the
source; integers suffice for every claim). -/
inductive AtomValue where
  | sym (name : String) (negate : Bool)
  | num (n : Int)
  deriving DecidableEq, Repr

/-- Expression nodes.  `A` is an atomic operand, `O` an atomic operation
(`is_O` in the source), `CO` a compound operation (`is_CO`).  Operation
nodes carry their operator's registry name and the operand list. -/
inductive Operand where
  | A (v : AtomValue)
  | O (opName : String) (args : List Operand)
  | CO (opName : String) (args : List Operand)

/-- `operand.is_A` in the source. -/
def Operand.isA : Operand → Bool
  | .A _ => true
  | _ => false

/-- `operand.is_O` in the source. -/
def Operand.isO : Operand → Bool
  | .O _ _ => true
  | _ => false

/-- `operand.is_CO` in the source. -/
def Operand.isCO : Operand → Bool
  | .CO _ _ => true
  | _ => false

/-- `operand.operator` in the source: `None` for atoms, the operator of an
operation node otherwise.  Operators are interned one instance per name
(`Operator.__new__`), so the Python identity test `o.operator is self`
coincides with equality of registry names. -/
def Operand.operatorName : Operand → Option String
  | .A _ => none
  | .O n _ => some n
  | .CO n _ => some n

/-- `operand.operands` in the source (atoms have no operand list). -/
def Operand.operandList : Operand → List Operand
  | .A _ => []
  | .O _ args => args
  | .CO _ args => args

/-!
## Operator metadata (`hsm/algebra/operations/operators.py`)

Each registered `Operator` subclass carries class-level metadata.  The
fields below mirror the class attributes after `__init_subclass__` has run
(`chainable` defaulted from `min_args`, `max_args` defaulted to infinity).
`maxArgs` and `priority` use `WithTop Nat` so that the source's
`float('inf')` sentinel is representable.
-/

/-- Metadata of one registered operator (`Operator` subclass). -/
structure Operator where
  name : String
  minArgs : Option Nat
  maxArgs : WithTop Nat
  priority : WithTop Nat
  associative : Bool
  commutative : Bool
  chainable : Bool
  idempotent : Bool
  evaluatesToBool : Bool

/-- `Addition` in `operators.py`. -/
def addOp : Operator :=
  { name := "add", minArgs := some 2, maxArgs := ⊤, priority := 0,
    associative := true, commutative := true, chainable := true,
    idempotent := false, evaluatesToBool := false }

/-- `Subtraction` in `operators.py` (inherits `Addition`, overrides
associativity and commutativity). -/
def subOp : Operator :=
  { name := "sub", minArgs := some 2, maxArgs := ⊤, priority := 0,
    associative := false, commutative := false, chainable := true,
    idempotent := false, evaluatesToBool := false }

/-- `Multiplication` in `operators.py`. -/
def mulOp : Operator :=
  { name := "mul", minArgs := some 2, maxArgs := ⊤, priority := 1,
    associative := true, commutative := true, chainable := true,
    idempotent := false, evaluatesToBool := false }

/-- `Division` in `operators.py` (inherits `Multiplication`). -/
def divOp : Operator :=
  { name := "div", minArgs := some 2, maxArgs := ⊤, priority := 1,
    associative := false, commutative := false, chainable := true,
    idempotent := false, evaluatesToBool := false }

/-- `Modulus` (absolute value, name `abs`) in `operators.py`:
`idempotent = True`, `min_args = max_args = 1`, hence `chainable` defaults
to `False`. -/
def absOp : Operator :=
  { name := "abs", minArgs := some 1, maxArgs := (1 : Nat), priority := 3,
    associative := false, commutative := false, chainable := false,
    idempotent := true, evaluatesToBool := false }

/-- `Equal` in `operators.py` (a `Comparison`, hence a `Relation`:
priority infinity, non-associative, unbounded `max_args`). -/
def eqOp : Operator :=
  { name := "eq", minArgs := some 2, maxArgs := ⊤, priority := ⊤,
    associative := false, commutative := true, chainable := true,
    idempotent := false, evaluatesToBool := true }

/-- `LessThan` in `operators.py` (a `Comparison`). -/
def ltOp : Operator :=
  { name := "lt", minArgs := some 2, maxArgs := ⊤, priority := ⊤,
    associative := false, commutative := false, chainable := true,
    idempotent := false, evaluatesToBool := true }

/-!
## Node construction (`Operator.__call__`, `operators.py` lines 104-150)

The translation below mirrors the source's `if`/`elif` dispatch
line-by-line.  `O(self, ...)`/`CO(self, ...)` constructor calls become the
`Operand.O`/`Operand.CO` constructors applied to `self.name`; the Python
identity test `o.operator is self` becomes comparison of registry names
(operators are interned one instance per name).  The constructors'
validation hook is modelled separately (`validateOperation` below), as in
the source, where `__call__` only chooses the node shape.
-/

/-- Binary part of `Operator.__call__` (the `o2` present branch). -/
def operatorCallBinary (self : Operator) (o1 o2 : Operand) : Operand :=
  if o1.isA && o2.isA then .O self.name [o1, o2]  -- case 2
  else
    let o1_so := o1.isA || (o1.operatorName == some self.name)
    let o2_so := o2.isA || (o2.operatorName == some self.name)
    let assoc := self.associative
    if o1_so || o2_so then  -- cases 3-10
      if o1.isA && o2_so && assoc then  -- cases 3-4
        if o2.isO then .O self.name (o1 :: o2.operandList)  -- case 3
        else if o2.isCO then .CO self.name (o1 :: o2.operandList)  -- case 4
        else .CO self.name [o1, o2]
      else if o2.isA && o1_so then
        if o1.isO then .O self.name (o1.operandList ++ [o2])  -- case 5
        else if o1.isCO then .CO self.name (o1.operandList ++ [o2])  -- case 8
        else .CO self.name [o1, o2]
      else if !(o1.isA || o2.isA) then
        if assoc && o2_so then
          if o1.isO && o1_so && o2.isO then
            .O self.name (o1.operandList ++ o2.operandList)  -- case 6
          else if o1_so then
            .CO self.name (o1.operandList ++ o2.operandList)
          else
            .CO self.name (o1 :: o2.operandList)
        else if o1_so then
          .CO self.name (o1.operandList ++ [o2])
        else .CO self.name [o1, o2]
      else .CO self.name [o1, o2]
    else .CO self.name [o1, o2]  -- common case

/-- Unary part of `Operator.__call__` (the `o2 is MISSING` branch):
atoms are wrapped in an atomic operation, an operation already under the
same idempotent operator is returned unchanged (the very same node, no new
construction), anything else is wrapped in a compound operation. -/
def operatorCallUnary (self : Operator) (o1 : Operand) : Operand :=
  if o1.isA then .O self.name [o1]  -- case 1.1
  else if (o1.operatorName == some self.name) && (o1.isO || o1.isCO)
      && self.idempotent then o1  -- case 1.2
  else .CO self.name [o1]  -- case 1.3

/-- `Operator.__call__` with the source's optional second operand. -/
def operatorCall (self : Operator) (o1 : Operand) (o2 : Option Operand) : Operand :=
  match o2 with
  | none => operatorCallUnary self o1
  | some o2 => operatorCallBinary self o1 o2

/-- The specification's notion of a side being "compatible" with the
operator being applied: the side is an atom, or it is itself an operation
built with the same operator and that operator is associative.  (Stated
from the specification's words, for comparison with `operatorCallBinary`;
it is not part of the source.) -/
def specCompatible (op : Operator) (o : Operand) : Bool :=
  o.isA || ((o.operatorName == some op.name) && op.associative)

/-!
## Representation engine (`hsm/arith/repr.py` and `hsm/arith/arithmetics.py`)

The canonical renderer is `PythonReprEngine` with the `join` dispatch:
an operation node renders by joining each operand's rendering with the
operator's infix separator, and `repr_operand` decides whether a child is
parenthesised:

```
parentheses = not operand.is_A and (
    parentheses or tree
    or (priority_parenthesization
        and arith.priority >= operand.priority
        and associativity_parenthesization
        and context
        and not arith.associative))
```

`tree` is `False` on this path and `associativity_parenthesization` is
never overridden (always `True`); `context` holds the already-rendered
operands, so its truthiness is exactly "this is not the first operand".
The per-operator data (separator, priority, associativity and the engine
keyword overrides) comes from `arithmetics.py`; only the operators with a
`join` engine are tabulated, which covers every operator a claim renders
(the `composition` engines of `abs`, `root` and `neg` are never reached by
a claim).  Atoms render as in `AtomicNode.repr`: the value's string form,
with negative numeric literals wrapped in parentheses, ignoring the
parenthesisation request.
-/

/-- Per-operator rendering metadata: the `Arithmetic` subclass fields of
`arithmetics.py` together with its `repr_engine` configuration.
`alwaysParens` models an engine constructed with `parentheses=True`
(the boolean connectives); `priorityParenthesization` models the
`priority_parenthesization=False` overrides (the relations). -/
structure RenderArith where
  priority : WithTop Nat
  associative : Bool
  sep : String
  priorityParenthesization : Bool
  alwaysParens : Bool

/-- The `repr_engine` table of `arithmetics.py` for the join-rendered
operators. -/
def arithRenderTable : List (String × RenderArith) :=
  [("add", ⟨0, true, " + ", true, false⟩),
   ("sub", ⟨0, false, " - ", true, false⟩),
   ("mul", ⟨1, true, " * ", true, false⟩),
   ("div", ⟨1, false, " / ", true, false⟩),
   ("pow", ⟨2, false, " ^ ", true, false⟩),
   ("eq", ⟨⊤, false, " = ", false, false⟩),
   ("ne", ⟨⊤, false, " != ", false, false⟩),
   ("ge", ⟨⊤, false, " >= ", false, false⟩),
   ("gt", ⟨⊤, false, " > ", false, false⟩),
   ("le", ⟨⊤, false, " <= ", false, false⟩),
   ("lt", ⟨⊤, false, " < ", false, false⟩),
   ("and", ⟨⊤, true, " ∧ ", true, true⟩),
   ("or", ⟨⊤, true, " ∨ ", true, true⟩),
   ("xor", ⟨⊤, true, " ⊻ ", true, true⟩)]

/-- `operand.priority`: operation nodes delegate to their arithmetic's
priority; unregistered names keep the `Arithmetic` class default `0`.
(Atom priority is never consulted: `repr_operand` short-circuits on
`is_A`.) -/
def operandPriority : Operand → WithTop Nat
  | .A _ => 0
  | .O n _ | .CO n _ =>
      match arithRenderTable.lookup n with
      | some m => m.priority
      | none => 0

/-- The parenthesisation decision of `PythonReprEngine.repr_operand` for
one child operand (`laterOperand` is the truthiness of `context`). -/
def childNeedsParens (m : RenderArith) (child : Operand) (laterOperand : Bool) : Bool :=
  !child.isA &&
    (m.alwaysParens ||
      (m.priorityParenthesization && decide (operandPriority child ≤ m.priority)
        && laterOperand && !m.associative))

/-- `AtomicNode.repr`: the value's string form; negative numeric literals
are wrapped in parentheses (`repr_string.join('()')`). -/
def atomRepr : AtomValue → String
  | .sym name negate => if negate then "-" ++ name else name
  | .num n => if n < 0 then "(" ++ toString n ++ ")" else toString n

/-- Python's `str.join` over an already-rendered operand list. -/
def joinSep (sep : String) : List String → String
  | [] => ""
  | s :: rest =>
      match rest with
      | [] => s
      | _ :: _ => s ++ sep ++ joinSep sep rest

/-- Renders each operand of a node through a given child renderer,
threading the `context` flag exactly as the `join` dispatch does (the
first operand sees an empty context, all later ones a non-empty one).
Returns `none` when any child fails to render. -/
def renderArgsWith (r : Operand → Bool → Option String) (m : RenderArith) :
    List Operand → Bool → Option (List String)
  | [], _ => some []
  | a :: rest, laterOperand =>
      match r a (childNeedsParens m a laterOperand), renderArgsWith r m rest true with
      | some s, some ss => some (s :: ss)
      | _, _ => none

/-- The representation engine, with an explicit recursion budget `fuel`
(the source recursion is bounded by the tree depth; every theorem below
holds for all sufficient budgets).  An operation node looks up its
engine, joins the children's renderings with the separator, and wraps the
result in parentheses when requested (`repr_string.join('()')`); an atom
renders by `atomRepr`.  A node whose operator has no tabulated engine
fails to render (`none`), mirroring the `invalid representation type`
failure of the default engine. -/
def renderF : Nat → Operand → Bool → Option String
  | 0, _, _ => none
  | _ + 1, .A v, _ => some (atomRepr v)
  | fuel + 1, .O n args, parens =>
      match arithRenderTable.lookup n with
      | none => none
      | some m =>
          match renderArgsWith (renderF fuel) m args false with
          | none => none
          | some parts =>
              let s := joinSep m.sep parts
              some (if parens then "(" ++ s ++ ")" else s)
  | fuel + 1, .CO n args, parens =>
      match arithRenderTable.lookup n with
      | none => none
      | some m =>
          match renderArgsWith (renderF fuel) m args false with
          | none => none
          | some parts =>
              let s := joinSep m.sep parts
              some (if parens then "(" ++ s ++ ")" else s)

/-!
## The `hsm/core.py` draft: `OpKind`, `Operation` validation and rendering

`hsm/core.py` is the draft that validates arities and renders chained
relations (its `Operation` docstring is literally
`Operation('lt', x, y, 5) -> x < y < 5`).  `OpKind.chainable` defaults to
`nargs > 1`; `Operation.__post_init__` raises for too few arguments,
raises for too many when the kind is not chainable, and otherwise sets
`chained = True`.  `Operation.__repr__` applies the kind's positional
format string to all objects and, when chained, folds the objects beyond
`nargs` through `functools.reduce(opkind.repr.format, ...)`.
-/

/-- Left-brace character (`'\x7b'`). -/
def openBrace : Char := Char.ofNat 123

/-- Right-brace character (`'\x7d'`). -/
def closeBrace : Char := Char.ofNat 125

/-- Python `str.format` for templates built from literal text and
explicit single-digit positional fields (all templates in `core.py` have
this shape).  Extra arguments are ignored, as in Python; a field index
past the argument list or a malformed field is an error (`none`). -/
def pyFormatGo (args : List String) : List Char → Option String
  | [] => some ""
  | c :: rest =>
      if c = openBrace then
        match rest with
        | d :: c2 :: rest2 =>
            if c2 = closeBrace && d.isDigit then
              match args.get? (d.toNat - 48) with
              | some s =>
                  match pyFormatGo args rest2 with
                  | some t => some (s ++ t)
                  | none => none
              | none => none
            else none
        | _ => none
      else if c = closeBrace then none
      else
        match pyFormatGo args rest with
        | some t => some (String.singleton c ++ t)
        | none => none

/-- Python `fmt.format(*args)` (see `pyFormatGo`). -/
def pyFormat (fmt : String) (args : List String) : Option String :=
  pyFormatGo args fmt.data

/-- `OpKind` of `hsm/core.py` (the fields a claim touches).  `chainable`
holds the value of its `default_factory`, `nargs > 1`. -/
structure OpKind where
  name : String
  fmt : String
  nargs : Int
  commutative : Bool
  comparison : Bool
  chainable : Bool

/-- `Operations.ABS = OpKind('abs', '|{0}|', nargs=1)`:
`chainable = (1 > 1) = False`. -/
def absKind : OpKind :=
  { name := "abs", fmt := "|\x7b0\x7d|", nargs := 1,
    commutative := false, comparison := false, chainable := false }

/-- `Operations.LT = OpKind('lt', '{0} < {1}', comparison=True)`:
`nargs` defaults to `2`, hence `chainable = True`. -/
def ltKind : OpKind :=
  { name := "lt", fmt := "\x7b0\x7d < \x7b1\x7d", nargs := 2,
    commutative := false, comparison := true, chainable := true }

/-- An `Object` of the `core.py` draft: a named `Symbol` or an interned
numeric `Const` (`hsm/const.py`). -/
inductive CoreObject where
  | sym (name : String)
  | const (value : Int)
  deriving DecidableEq, Repr

/-- `Symbol.__repr__` / `Const.__repr__`: the name, resp. the value's
string form wrapped in parentheses when negative. -/
def coreObjectRepr : CoreObject → String
  | .sym n => n
  | .const v => if v < 0 then "(" ++ toString v ++ ")" else toString v

/-- Errors raised by `Operation.__post_init__`. -/
inductive CoreError where
  | tooFewArguments (opName : String)
  | notChainable (opName : String)
  deriving DecidableEq, Repr

/-- `Operation.__post_init__` (`core.py` lines 345-359): validates the
argument count against `opkind.nargs` and returns the node's `chained`
flag (initially `False`, set `True` when the count exceeds `nargs` and
the kind is chainable). -/
def operationValidate (k : OpKind) (objects : List CoreObject) :
    Except CoreError Bool :=
  if k.nargs ≠ -1 then
    let nargs : Int := objects.length
    if nargs < k.nargs then .error (.tooFewArguments k.name)
    else if nargs > k.nargs then
      if !k.chainable then .error (.notChainable k.name)
      else .ok true
    else .ok false
  else .ok false

/-- `Operation.__repr__`: format all objects through the kind's template,
then, if `chained`, fold the objects from index `nargs` on through
repeated formatting. -/
def operationRepr (k : OpKind) (objects : List CoreObject) (chained : Bool) :
    Option String :=
  let strs := objects.map coreObjectRepr
  match pyFormat k.fmt strs with
  | none => none
  | some first =>
      if chained then
        (strs.drop k.nargs.toNat).foldlM (fun acc s => pyFormat k.fmt [acc, s]) first
      else some first

/-!
## Operator interning and lookup
(`hsm/util/oop.py` `make_factory_constructor`, `Operator.__new__`,
`hsm/errors.py`)

`Operator.__new__` is wrapped in a factory constructor keyed on the name:
a memo dictionary maps each previously requested name to its live
instance; a miss allocates a fresh instance through the inner `__new__`,
which consults the `_classes` registration table and, for an unregistered
name, executes `raise errors.NoSuchOperation(...)`.  The `hsm/errors`
module, however, defines no class of that name — evaluating the attribute
`errors.NoSuchOperation` therefore raises `AttributeError` before any HSM
error can be constructed.  Instances are identified by allocation order
(`Nat` ids); the registry's weak references (collection of dead entries)
are outside the embedding, which models the behaviour while the instances
are alive.
-/

/-- Registered operator names: the `Operator` subclasses of
`operators.py` in definition order (classes without a string `name`, such
as `ArithmeticOperator` or `Relation`, never register). -/
def operatorClasses : List String :=
  ["add", "sub", "mul", "minus", "div", "pow", "root", "abs",
   "eq", "approx eq", "ne", "ge", "gt", "le", "lt",
   "in", "not in", "subset of", "proper subset of",
   "union", "intersection", "diff", "neg", "and", "or", "xor"]

/-- Exception classes defined by `hsm/errors.py`. -/
def errorsModuleClasses : List String :=
  ["HSMError", "ConstructorError", "CoercionError"]

/-- Failure of an operator lookup. -/
inductive PyError where
  | attributeError (missingName : String)
  | hsmError (clsName : String)
  deriving DecidableEq, Repr

/-- Executing `raise errors.<clsName>(...)`: constructing the named error
requires the attribute to exist on the `errors` module; otherwise Python
raises `AttributeError` instead. -/
def raiseFromErrorsModule (clsName : String) : PyError :=
  if clsName ∈ errorsModuleClasses then .hsmError clsName
  else .attributeError clsName

/-- The factory-constructor memo (`__factory_constructor_memo__`):
interned instances by name, plus the next fresh allocation id. -/
structure FactoryMemo where
  memo : List (String × Nat)
  next : Nat
  deriving DecidableEq, Repr

/-- The state before any lookup. -/
def emptyMemo : FactoryMemo := ⟨[], 0⟩

/-- `Operator(name)`: the factory constructor returns the memoised
instance when the key hits; otherwise the inner `__new__` runs — it
allocates for a registered name (and the factory stores the instance
under the key) and attempts `raise errors.NoSuchOperation(...)` for an
unregistered one. -/
def operatorNew (st : FactoryMemo) (name : String) :
    Except PyError (Nat × FactoryMemo) :=
  match st.memo.lookup name with
  | some inst => .ok (inst, st)
  | none =>
      if name ∈ operatorClasses then
        .ok (st.next, ⟨(name, st.next) :: st.memo, st.next + 1⟩)
      else
        .error (raiseFromErrorsModule "NoSuchOperation")

/-- Runs a sequence of lookups; a failing lookup leaves the memo
unchanged (the exception propagates before anything is stored). -/
def runLookups (st : FactoryMemo) : List String → FactoryMemo
  | [] => st
  | n :: rest =>
      match operatorNew st n with
      | .ok (_, st2) => runLookups st2 rest
      | .error _ => runLookups st rest

/-!
## The `swapped` registration hook
(`Operator._setup_swapped_ops`, `operators.py` lines 209-221)

At class-registration time, a class declaring `swapped = "A"` looks `A`
up in the registration table; when found, the source executes

```
swapped_cls.swapped_name = cls.name
swapped_cls.swapped_cls = cls
cls._swapped_cls = swapped_cls
```

i.e. it sets the attributes `swapped_name` and `swapped_cls` on the
partner — attributes nothing ever reads — instead of the partner's
`swapped` / `_swapped_cls` fields, and links only its own
`_swapped_cls`.  (The `if swapped_cls:` branch of the source handles a
class inheriting an already-resolved `_swapped_cls`; no registered class
of `operators.py` inherits one, so it is never taken and is not
modelled.)  The identically structured hook in
`hsm/arith/scheme.py` (`OperationScheme.__init_subclass__`) has the same
behaviour.
-/

/-- Per-class state relevant to the `swapped` linkage. -/
structure OperatorClsState where
  swapped : Option String
  swappedClsLink : Option String
  straySwappedName : Option String
  straySwappedClsAttr : Option String
  deriving DecidableEq, Repr

/-- Pointwise update of one entry of the registration table. -/
def updateReg (reg : List (String × OperatorClsState)) (n : String)
    (f : OperatorClsState → OperatorClsState) :
    List (String × OperatorClsState) :=
  reg.map (fun p => if p.1 = n then (p.1, f p.2) else p)

/-- Registration of one operator class (`__init_subclass__`: record the
class in `_classes`, then run `_setup_swapped_ops`). -/
def registerOperatorCls (reg : List (String × OperatorClsState))
    (clsName : String) (swappedDecl : Option String) :
    List (String × OperatorClsState) :=
  let st0 : OperatorClsState := ⟨swappedDecl, none, none, none⟩
  let reg1 := reg ++ [(clsName, st0)]
  match swappedDecl with
  | some swappedName =>
      match reg1.lookup swappedName with
      | some _ =>
          updateReg
            (updateReg reg1 swappedName
              (fun st => { st with straySwappedName := some clsName,
                                   straySwappedClsAttr := some clsName }))
            clsName (fun st => { st with swappedClsLink := some swappedName })
      | none => reg1
  | none => reg1

/-- The registrations of `operators.py` in textual order with their
`swapped` declarations. -/
def operatorDecls : List (String × Option String) :=
  [("add", none), ("sub", none), ("mul", none), ("minus", none),
   ("div", none), ("pow", none), ("root", none), ("abs", none),
   ("eq", none), ("approx eq", none), ("ne", none),
   ("ge", some "le"), ("gt", some "lt"), ("le", some "ge"),
   ("lt", some "gt"),
   ("in", none), ("not in", none), ("subset of", none),
   ("proper subset of", none), ("union", none), ("intersection", none),
   ("diff", none), ("neg", none), ("and", none), ("or", none),
   ("xor", none)]

/-- The registration table after the whole module has been imported. -/
def finalOperatorReg : List (String × OperatorClsState) :=
  operatorDecls.foldl (fun reg d => registerOperatorCls reg d.1 d.2) []

/-!
## `Symbol.from_string` (`operands.py` lines 282-305)

Parsing a string into a symbol: warn (once) when the parenthesis counts
differ, strip one layer of parentheses when the string both starts with
`'('` and ends with `')'`, then — if the result starts with `'-'` — strip
every leading minus at once, flip the `negate` flag when the number
stripped is odd, and recurse.  The function returns the symbol together
with a flag recording whether a warning was emitted; it never raises for
a string input.  `fuel` bounds the recursion depth (each recursive call
strictly shortens the string, so any budget beyond the length suffices).
-/

/-- The parsed symbol (`Symbol(name, negate)`). -/
structure PySymbol where
  name : String
  negate : Bool
  deriving DecidableEq, Repr

/-- The warning condition: not yet suppressed and the counts of `'('`
and `')'` differ (`string.count('(') != string.count(')')`). -/
def bracketWarning (s : List Char) (suppress : Bool) : Bool :=
  !suppress && !(s.count '(' == s.count ')')

/-- The parenthesis-stripping step: when the string both starts with
`'('` and ends with `')'`, take `string[1:-1]`; otherwise leave it. -/
def parenStrip (s : List Char) : List Char :=
  if (s.head? == some '(') && (s.getLast? == some ')') then
    (s.drop 1).dropLast
  else s

/-- The negate flag passed to the recursive call,
`(_negate, not _negate)[(len(string) - len(new_string)) % 2]`:
flip `negate` when the number of leading minus signs stripped from `s1`
(all at once, by `lstrip('-')`) is odd. -/
def minusFlip (s1 : List Char) (negate : Bool) : Bool :=
  if (s1.length - (s1.dropWhile (fun c => c == '-')).length) % 2 == 1 then
    !negate
  else negate

/-- `Symbol.from_string` on the character list of the input, with an
explicit recursion budget.  Returns `(symbol, warned)`: after the
bracket-count check (`bracketWarning`) and the paired-parenthesis strip
(`parenStrip`), a string starting with `'-'` recurses on its
minus-stripped remainder with the flipped flag and the warning
suppressed, and any other string becomes a symbol carrying the current
flag. -/
def fromStringF : Nat → List Char → Bool → Bool → Option (PySymbol × Bool)
  | 0, _, _, _ => none
  | fuel + 1, s, negate, suppress =>
      if (parenStrip s).head? == some '-' then
        match fromStringF fuel ((parenStrip s).dropWhile (fun c => c == '-'))
            (minusFlip (parenStrip s) negate)
            (suppress || bracketWarning s suppress) with
        | some (sym, w) => some (sym, w || bracketWarning s suppress)
        | none => none
      else
        some (⟨String.mk (parenStrip s), negate⟩, bracketWarning s suppress)

/-- `Symbol.from_string(string)` with its default arguments. -/
def fromString (s : String) : Option (PySymbol × Bool) :=
  fromStringF (s.data.length + 1) s.data false false

/-!
## Helper lemmas
-/

theorem dropWhile_length_le {α : Type} (p : α → Bool) (t : List α) :
    (t.dropWhile p).length ≤ t.length := by
  induction t with
  | nil => simp
  | cons c t ih =>
      rw [List.dropWhile]
      cases hp : p c
      · simp
      · simp only [List.length_cons]
        omega

theorem parenStrip_length_le (s : List Char) : (parenStrip s).length ≤ s.length := by
  rw [parenStrip]
  split
  · simp [List.length_dropLast]
    omega
  · exact le_refl _

theorem dropWhile_minus_length_lt (s1 : List Char) (h : s1.head? = some '-') :
    (s1.dropWhile (fun c => c == '-')).length < s1.length := by
  cases s1 with
  | nil => simp at h
  | cons c t =>
      have hc : c = '-' := by simpa using h
      subst hc
      simp only [List.dropWhile]
      simp only [beq_self_eq_true]
      have := dropWhile_length_le (fun c => c == '-') t
      simp only [List.length_cons]
      omega

theorem dropWhile_minus_replicate (n : Nat) (name : List Char)
    (h : name.head? ≠ some '-') :
    (List.replicate n '-' ++ name).dropWhile (fun c => c == '-') = name := by
  induction n with
  | zero =>
      cases name with
      | nil => rfl
      | cons c t =>
          have hc : (c == '-') = false := by
            simp only [beq_eq_false_iff_ne]
            intro hcc
            exact h (by simp [hcc])
          simp [List.dropWhile, hc]
  | succ k ih => simpa [List.replicate_succ, List.dropWhile] using ih

theorem fromStringF_isSome : ∀ (fuel : Nat) (s : List Char) (negate suppress : Bool),
    s.length < fuel → (fromStringF fuel s negate suppress).isSome := by
  intro fuel
  induction fuel with
  | zero => intro s negate suppress h; omega
  | succ k ih =>
      intro s negate suppress h
      rw [fromStringF]
      have hs1 : (parenStrip s).length ≤ s.length := parenStrip_length_le s
      by_cases hm : ((parenStrip s).head? == some '-') = true
      · rw [if_pos hm]
        have hm2 : (parenStrip s).head? = some '-' := by simpa using hm
        have hlt : ((parenStrip s).dropWhile (fun c => c == '-')).length < k := by
          have := dropWhile_minus_length_lt (parenStrip s) hm2
          omega
        have h2 := ih _ (minusFlip (parenStrip s) negate)
          (suppress || bracketWarning s suppress) hlt
        cases hres : fromStringF k ((parenStrip s).dropWhile (fun c => c == '-'))
            (minusFlip (parenStrip s) negate)
            (suppress || bracketWarning s suppress) with
        | some r => simp
        | none => rw [hres] at h2; simp at h2
      · rw [if_neg hm]
        simp

theorem count_minus_replicate_append (n : Nat) (name : List Char) (c : Char)
    (hc : c ≠ '-') (hn : c ∉ name) :
    (List.replicate n '-' ++ name).count c = 0 := by
  rw [List.count_append]
  rw [List.count_replicate]
  simp [Ne.symm hc, List.count_eq_zero.mpr hn]

theorem fromStringF_plain (fuel : Nat) (name : List Char) (negate suppress : Bool)
    (hp1 : '(' ∉ name) (hp2 : ')' ∉ name) (hm : name.head? ≠ some '-') :
    fromStringF (fuel + 1) name negate suppress
      = some (⟨String.mk name, negate⟩, false) := by
  rw [fromStringF]
  have hps : parenStrip name = name := by
    rw [parenStrip, if_neg]
    simp only [Bool.and_eq_true, beq_iff_eq, not_and]
    intro hhead
    exact absurd (List.mem_of_mem_head? (by rw [hhead]; rfl)) hp1
  have hw : bracketWarning name suppress = false := by
    simp [bracketWarning, List.count_eq_zero.mpr hp1, List.count_eq_zero.mpr hp2]
  rw [hps, hw]
  rw [if_neg (by simpa using hm)]

theorem fromString_leading_minuses (n : Nat) (name : List Char)
    (hp1 : '(' ∉ name) (hp2 : ')' ∉ name) (hm : name.head? ≠ some '-') :
    fromString (String.mk (List.replicate n '-' ++ name))
      = some (⟨String.mk name, n % 2 == 1⟩, false) := by
  cases n with
  | zero =>
      show fromStringF (name.length + 1) name false false = _
      rw [fromStringF_plain name.length name false false hp1 hp2 hm]
      rfl
  | succ k =>
      show fromStringF ((List.replicate (k+1) '-' ++ name).length + 1)
        (List.replicate (k+1) '-' ++ name) false false = _
      have hlen : (List.replicate (k+1) '-' ++ name).length = (k + name.length) + 1 := by
        simp [List.length_append, List.length_replicate]
        omega
      rw [hlen]
      rw [fromStringF]
      have hhead : (List.replicate (k+1) '-' ++ name).head? = some '-' := by
        rw [List.replicate_succ]
        rfl
      have hps : parenStrip (List.replicate (k+1) '-' ++ name)
          = List.replicate (k+1) '-' ++ name := by
        rw [parenStrip, if_neg]
        simp [hhead]
      have hw : bracketWarning (List.replicate (k+1) '-' ++ name) false = false := by
        simp [bracketWarning,
          count_minus_replicate_append (k+1) name '(' (by decide) hp1,
          count_minus_replicate_append (k+1) name ')' (by decide) hp2]
      rw [hps, hw]
      rw [if_pos (by simp [hhead])]
      rw [dropWhile_minus_replicate (k+1) name hm]
      have hflip : minusFlip (List.replicate (k+1) '-' ++ name) false
          = ((k+1) % 2 == 1) := by
        rw [minusFlip, dropWhile_minus_replicate (k+1) name hm, hlen]
        have heq : ((k + name.length) + 1 - name.length) % 2 = (k+1) % 2 := by omega
        rw [heq]
        cases hb : (((k+1) % 2 == 1) : Bool)
        · simp [hb]
        · simp [hb]
      rw [hflip]
      rw [Bool.or_false]
      rw [fromStringF_plain (k + name.length) name _ false hp1 hp2 hm]
      simp

theorem fromString_paired_parens (name : List Char)
    (hp1 : '(' ∉ name) (hp2 : ')' ∉ name) (hm : name.head? ≠ some '-') :
    fromString (String.mk ('(' :: (name ++ [')'])))
      = some (⟨String.mk name, false⟩, false) := by
  show fromStringF (('(' :: (name ++ [')'])).length + 1)
    ('(' :: (name ++ [')'])) false false = _
  rw [fromStringF]
  have hlast : ('(' :: (name ++ [')'])).getLast? = some ')' := by
    rw [show ('(' :: (name ++ [')'])) = ('(' :: name) ++ [')'] by simp]
    exact List.getLast?_concat _
  have hw : bracketWarning ('(' :: (name ++ [')'])) false = false := by
    simp [bracketWarning, List.count_cons, List.count_append,
      List.count_eq_zero.mpr hp1, List.count_eq_zero.mpr hp2]
  have hps : parenStrip ('(' :: (name ++ [')'])) = name := by
    rw [parenStrip, if_pos]
    · simp [List.dropLast_concat]
    · simp [hlast]
  rw [hps, hw]
  rw [if_neg (by simpa using hm)]

theorem fromString_unbalanced (s : String)
    (hs : s.data.count '(' ≠ s.data.count ')') :
    ∃ r : PySymbol, fromString s = some (r, true) := by
  show ∃ r, fromStringF (s.data.length + 1) s.data false false = some (r, true)
  rw [fromStringF]
  have hw : bracketWarning s.data false = true := by
    simp [bracketWarning]
    omega
  by_cases hm : ((parenStrip s.data).head? == some '-') = true
  · rw [if_pos hm]
    have hm2 : (parenStrip s.data).head? = some '-' := by simpa using hm
    have hlt : ((parenStrip s.data).dropWhile (fun c => c == '-')).length
        < s.data.length :=
      lt_of_lt_of_le (dropWhile_minus_length_lt _ hm2) (parenStrip_length_le _)
    cases hres : fromStringF s.data.length
        ((parenStrip s.data).dropWhile (fun c => c == '-'))
        (minusFlip (parenStrip s.data) false)
        (false || bracketWarning s.data false) with
    | some r =>
        obtain ⟨sym, w⟩ := r
        exact ⟨sym, by rw [hw]; simp⟩
    | none =>
        exfalso
        have h2 := fromStringF_isSome s.data.length
          ((parenStrip s.data).dropWhile (fun c => c == '-'))
          (minusFlip (parenStrip s.data) false)
          (false || bracketWarning s.data false) hlt
        rw [hres] at h2
        simp at h2
  · rw [if_neg hm]
    exact ⟨⟨String.mk (parenStrip s.data), false⟩, by rw [hw]⟩

theorem not_mem_keys_of_lookup_eq_none {l : List (String × Nat)} {name : String}
    (h : l.lookup name = none) : name ∉ l.map Prod.fst := by
  induction l with
  | nil => simp
  | cons p t ih =>
      obtain ⟨k, v⟩ := p
      simp only [List.lookup] at h
      cases hbe : (name == k) with
      | true => rw [hbe] at h; simp at h
      | false =>
          rw [hbe] at h
          simp only [List.map_cons, List.mem_cons, not_or]
          exact ⟨by simpa using hbe, ih h⟩

theorem operatorNew_ok_lookup {st : FactoryMemo} {name : String} {inst : Nat}
    {st2 : FactoryMemo} (h : operatorNew st name = .ok (inst, st2)) :
    st2.memo.lookup name = some inst := by
  rw [operatorNew] at h
  cases hl : st.memo.lookup name with
  | some i =>
      rw [hl] at h
      simp only [Except.ok.injEq, Prod.mk.injEq] at h
      rw [← h.2, hl, h.1]
  | none =>
      rw [hl] at h
      by_cases hmem : name ∈ operatorClasses
      · rw [if_pos hmem] at h
        simp only [Except.ok.injEq, Prod.mk.injEq] at h
        rw [← h.2]
        simp [List.lookup, h.1]
      · rw [if_neg hmem] at h
        simp at h

theorem operatorNew_registered_ok {st : FactoryMemo} {name : String}
    (h : name ∈ operatorClasses) :
    ∃ inst st2, operatorNew st name = .ok (inst, st2) := by
  rw [operatorNew]
  cases hl : st.memo.lookup name with
  | some i => exact ⟨i, st, rfl⟩
  | none => rw [if_pos h]; exact ⟨st.next, _, rfl⟩

theorem operatorNew_preserves_nodup {st : FactoryMemo} {name : String} {inst : Nat}
    {st2 : FactoryMemo} (hn : (st.memo.map Prod.fst).Nodup)
    (h : operatorNew st name = .ok (inst, st2)) :
    (st2.memo.map Prod.fst).Nodup := by
  rw [operatorNew] at h
  cases hl : st.memo.lookup name with
  | some i =>
      rw [hl] at h
      simp only [Except.ok.injEq, Prod.mk.injEq] at h
      rw [← h.2]
      exact hn
  | none =>
      rw [hl] at h
      by_cases hmem : name ∈ operatorClasses
      · rw [if_pos hmem] at h
        simp only [Except.ok.injEq, Prod.mk.injEq] at h
        rw [← h.2]
        simp only [List.map_cons, List.nodup_cons]
        exact ⟨not_mem_keys_of_lookup_eq_none hl, hn⟩
      · rw [if_neg hmem] at h
        simp at h

theorem runLookups_nodup (seq : List String) (st : FactoryMemo)
    (hn : (st.memo.map Prod.fst).Nodup) :
    ((runLookups st seq).memo.map Prod.fst).Nodup := by
  induction seq generalizing st with
  | nil => simpa [runLookups] using hn
  | cons n rest ih =>
      rw [runLookups]
      cases hcall : operatorNew st n with
      | ok r =>
          obtain ⟨inst, st2⟩ := r
          exact ih st2 (operatorNew_preserves_nodup hn hcall)
      | error e =>
          exact ih st hn

theorem operatorCallBinary_shape (self : Operator) (o1 o2 : Operand) :
    ∃ args, operatorCallBinary self o1 o2 = Operand.O self.name args
      ∨ operatorCallBinary self o1 o2 = Operand.CO self.name args := by
  simp only [operatorCallBinary]
  repeat' split
  all_goals first
    | exact ⟨_, Or.inl rfl⟩
    | exact ⟨_, Or.inr rfl⟩

/-!
## Claim theorems
-/

/-- C1: for every associative operator `@` that renders through an infix
join engine, and all atoms `a`, `b`, `c`, the two construction orders
`combine(@, combine(@, a, b), c)` and `combine(@, a, combine(@, b, c))`
produce the same flat node, and it renders as the flat chain
`a @ b @ c` with the operator's infix separator and no parentheses
(for any sufficient rendering budget). -/
theorem C1_associative_flattening_render (op : Operator) (m : RenderArith)
    (hassoc : op.associative = true)
    (hm : arithRenderTable.lookup op.name = some m)
    (a b c : AtomValue) (fuel : Nat) :
    operatorCall op (operatorCall op (.A a) (some (.A b))) (some (.A c))
      = operatorCall op (.A a) (some (operatorCall op (.A b) (some (.A c))))
    ∧ renderF (fuel + 1 + 1)
        (operatorCall op (operatorCall op (.A a) (some (.A b))) (some (.A c))) false
      = some (atomRepr a ++ m.sep ++ atomRepr b ++ m.sep ++ atomRepr c) := by
  have h1 : operatorCall op (.A a) (some (.A b)) = .O op.name [.A a, .A b] := by
    simp [operatorCall, operatorCallBinary, Operand.isA]
  have h2 : operatorCall op (.A b) (some (.A c)) = .O op.name [.A b, .A c] := by
    simp [operatorCall, operatorCallBinary, Operand.isA]
  have h3 : operatorCall op (.O op.name [.A a, .A b]) (some (.A c))
      = .O op.name [.A a, .A b, .A c] := by
    simp [operatorCall, operatorCallBinary, Operand.isA, Operand.isO, Operand.isCO,
      Operand.operatorName, Operand.operandList]
  have h4 : operatorCall op (.A a) (some (.O op.name [.A b, .A c]))
      = .O op.name [.A a, .A b, .A c] := by
    simp [operatorCall, operatorCallBinary, Operand.isA, Operand.isO, Operand.isCO,
      Operand.operatorName, Operand.operandList, hassoc]
  refine ⟨by rw [h1, h3, h2, h4], ?_⟩
  rw [h1, h3]
  simp [renderF, hm, renderArgsWith, childNeedsParens, Operand.isA, joinSep,
    String.append_assoc]

/-- Witness for `C1_associative_flattening_render`: addition on the atoms
`x`, `y`, `z` gives the same node in both orders and renders
`"x + y + z"`. -/
theorem C1_associative_flattening_render_witness :
    addOp.associative = true
    ∧ arithRenderTable.lookup addOp.name
        = some ⟨0, true, " + ", true, false⟩
    ∧ (operatorCall addOp
          (operatorCall addOp (.A (.sym "x" false)) (some (.A (.sym "y" false))))
          (some (.A (.sym "z" false)))
        = operatorCall addOp (.A (.sym "x" false))
            (some (operatorCall addOp (.A (.sym "y" false)) (some (.A (.sym "z" false)))))
      ∧ renderF 2
          (operatorCall addOp
            (operatorCall addOp (.A (.sym "x" false)) (some (.A (.sym "y" false))))
            (some (.A (.sym "z" false)))) false
        = some "x + y + z") :=
  ⟨rfl, rfl,
   C1_associative_flattening_render addOp ⟨0, true, " + ", true, false⟩ rfl rfl
     (.sym "x" false) (.sym "y" false) (.sym "z" false) 0⟩

/-- C2, counterexample: with the non-associative `sub`, the sides
`O(sub, a, b)` and the atom `c` are not both compatible (the left side is
an operation whose operator, `sub`, is not associative), yet
`Operator.__call__` does not wrap the two operands in a Compound
Operation: it splices the left side's operand list, returning the flat
`O(sub, a, b, c)`, which is not `CO(sub, [O(sub, a, b), c])`. -/
theorem C2_incompatible_wrap_counterexample :
    (specCompatible subOp (Operand.O "sub" [.A (.sym "a" false), .A (.sym "b" false)])
      && specCompatible subOp (Operand.A (.sym "c" false))) = false
    ∧ operatorCall subOp (Operand.O "sub" [.A (.sym "a" false), .A (.sym "b" false)])
        (some (.A (.sym "c" false)))
      = Operand.O "sub" [.A (.sym "a" false), .A (.sym "b" false), .A (.sym "c" false)]
    ∧ operatorCall subOp (Operand.O "sub" [.A (.sym "a" false), .A (.sym "b" false)])
        (some (.A (.sym "c" false)))
      ≠ Operand.CO "sub" [Operand.O "sub" [.A (.sym "a" false), .A (.sym "b" false)],
          .A (.sym "c" false)] := by
  refine ⟨rfl, rfl, ?_⟩
  intro h
  have h2 : Operand.O "sub" [.A (.sym "a" false), .A (.sym "b" false), .A (.sym "c" false)]
      = Operand.CO "sub" [Operand.O "sub" [.A (.sym "a" false), .A (.sym "b" false)],
          .A (.sym "c" false)] := h
  exact Operand.noConfusion h2

/-- C2, amended: for every binary combination in which neither operand is
itself an operation under the operator being applied (each side's
operator differs, or the side is an atom) and the two sides are not both
atoms, `Operator.__call__` returns a Compound Operation wrapping exactly
the two original operand nodes, unflattened.  (When a side is an
operation under the applied operator, its operand list is spliced into
the result instead — on the left even for non-associative operators; see
the counterexample.) -/
theorem C2_incompatible_wrap_amended (op : Operator) (o1 o2 : Operand)
    (hna : (o1.isA && o2.isA) = false)
    (h1 : o1.operatorName ≠ some op.name)
    (h2 : o2.operatorName ≠ some op.name) :
    operatorCall op o1 (some o2) = Operand.CO op.name [o1, o2] := by
  have hb1 : (o1.operatorName == some op.name) = false := beq_eq_false_iff_ne.mpr h1
  have hb2 : (o2.operatorName == some op.name) = false := beq_eq_false_iff_ne.mpr h2
  show operatorCallBinary op o1 o2 = _
  simp only [operatorCallBinary, hna, hb1, hb2, Bool.or_false, Bool.false_and,
    Bool.and_false, if_false, Bool.false_eq_true, if_neg]
  cases ha1 : o1.isA <;> cases ha2 : o2.isA <;>
    simp_all

/-- Witness for `C2_incompatible_wrap_amended`: combining
`O(mul, a, b)` with the atom `c` under `sub` yields the exact wrap
`CO(sub, [O(mul, a, b), c])`. -/
theorem C2_incompatible_wrap_amended_witness :
    ((Operand.O "mul" [Operand.A (.sym "a" false), Operand.A (.sym "b" false)]).isA
        && (Operand.A (.sym "c" false)).isA) = false
    ∧ (Operand.O "mul" [Operand.A (.sym "a" false), Operand.A (.sym "b" false)]).operatorName
        ≠ some subOp.name
    ∧ (Operand.A (.sym "c" false)).operatorName ≠ some subOp.name
    ∧ operatorCall subOp
        (Operand.O "mul" [Operand.A (.sym "a" false), Operand.A (.sym "b" false)])
        (some (Operand.A (.sym "c" false)))
      = Operand.CO "sub" [Operand.O "mul" [Operand.A (.sym "a" false),
          Operand.A (.sym "b" false)], Operand.A (.sym "c" false)] :=
  ⟨rfl, by decide, by decide,
   C2_incompatible_wrap_amended subOp
     (Operand.O "mul" [Operand.A (.sym "a" false), Operand.A (.sym "b" false)])
     (Operand.A (.sym "c" false)) rfl (by decide) (by decide)⟩

/-- C3: for the non-associative subtraction operator and all atoms `a`,
`b`, `c`: `combine(sub, a, combine(sub, b, c))` is the compound node
`CO(sub, [a, O(sub, b, c)])` and renders with parentheses around the
nested right operand, `"a - (b - c)"`, while
`combine(sub, combine(sub, a, b), c)` renders flat with no parentheses,
`"a - b - c"` (for any sufficient rendering budget). -/
theorem C3_subtraction_nesting_render (a b c : AtomValue) (fuel : Nat) :
    operatorCall subOp (.A a) (some (operatorCall subOp (.A b) (some (.A c))))
      = Operand.CO "sub" [.A a, Operand.O "sub" [.A b, .A c]]
    ∧ renderF (fuel + 1 + 1 + 1)
        (operatorCall subOp (.A a) (some (operatorCall subOp (.A b) (some (.A c))))) false
      = some (atomRepr a ++ " - " ++ ("(" ++ (atomRepr b ++ " - " ++ atomRepr c) ++ ")"))
    ∧ operatorCall subOp (operatorCall subOp (.A a) (some (.A b))) (some (.A c))
      = Operand.O "sub" [.A a, .A b, .A c]
    ∧ renderF (fuel + 1 + 1)
        (operatorCall subOp (operatorCall subOp (.A a) (some (.A b))) (some (.A c))) false
      = some (atomRepr a ++ " - " ++ atomRepr b ++ " - " ++ atomRepr c) := by
  have hbc : operatorCall subOp (.A b) (some (.A c)) = .O "sub" [.A b, .A c] := by
    simp [operatorCall, operatorCallBinary, Operand.isA, subOp]
  have hab : operatorCall subOp (.A a) (some (.A b)) = .O "sub" [.A a, .A b] := by
    simp [operatorCall, operatorCallBinary, Operand.isA, subOp]
  have hr : operatorCall subOp (.A a) (some (.O "sub" [.A b, .A c]))
      = Operand.CO "sub" [.A a, Operand.O "sub" [.A b, .A c]] := by
    simp [operatorCall, operatorCallBinary, Operand.isA, Operand.isO, Operand.isCO,
      Operand.operatorName, Operand.operandList, subOp]
  have hl : operatorCall subOp (.O "sub" [.A a, .A b]) (some (.A c))
      = Operand.O "sub" [.A a, .A b, .A c] := by
    simp [operatorCall, operatorCallBinary, Operand.isA, Operand.isO, Operand.isCO,
      Operand.operatorName, Operand.operandList, subOp]
  have hsub : arithRenderTable.lookup "sub"
      = some ⟨0, false, " - ", true, false⟩ := rfl
  have hprio : operandPriority (Operand.O "sub" [.A b, .A c]) = 0 := rfl
  refine ⟨by rw [hbc, hr], ?_, by rw [hab, hl], ?_⟩
  · rw [hbc, hr]
    simp [renderF, renderArgsWith, childNeedsParens, hsub, hprio, Operand.isA,
      joinSep, String.append_assoc]
  · rw [hab, hl]
    simp [renderF, renderArgsWith, childNeedsParens, hsub, Operand.isA,
      joinSep, String.append_assoc]

/-- C4: for the idempotent unary operator `abs` and every atom `x`,
applying `abs` to `combine(abs, x)` — an operation already under `abs` —
returns that very node: the source's case 1.2 returns its argument
without constructing anything, which the embedding mirrors by returning
the argument term itself, so the result is the identical node. -/
theorem C4_abs_idempotence (v : AtomValue) :
    operatorCall absOp (operatorCall absOp (.A v) none) none
      = operatorCall absOp (.A v) none := by
  simp [operatorCall, operatorCallUnary, Operand.isA, Operand.isO, Operand.isCO,
    Operand.operatorName, absOp]

/-- C5: constructing `abs` with two operands fails with the
not-chainable arity error (`abs` takes exactly one argument and its
`chainable` default is `False`), while `Operation('lt', x, y, 5)`
validates successfully with the `chained` flag set and renders as the
chained relation `"x < y < 5"`. -/
theorem C5_arity_and_chaining :
    operationValidate absKind [.sym "x", .sym "y"] = .error (.notChainable "abs")
    ∧ absKind.chainable = false
    ∧ operationValidate ltKind [.sym "x", .sym "y", .const 5] = .ok true
    ∧ operationRepr ltKind [.sym "x", .sym "y", .const 5] true = some "x < y < 5" :=
  ⟨rfl, rfl, rfl, by decide⟩

/-- C6: after any sequence of lookups starting from the empty registry,
looking up a registered operator name succeeds, a second lookup of the
same name returns the identical instance and leaves the registry
unchanged, and the registry maps each name to at most one live instance
(its key list is duplicate-free). -/
theorem C6_operator_interning (seq : List String) (name : String)
    (hname : name ∈ operatorClasses) :
    ∃ inst st2,
      operatorNew (runLookups emptyMemo seq) name = .ok (inst, st2)
      ∧ operatorNew st2 name = .ok (inst, st2)
      ∧ (st2.memo.map Prod.fst).Nodup := by
  obtain ⟨inst, st2, hok⟩ :=
    @operatorNew_registered_ok (runLookups emptyMemo seq) name hname
  refine ⟨inst, st2, hok, ?_,
    operatorNew_preserves_nodup (runLookups_nodup seq emptyMemo (by simp [emptyMemo])) hok⟩
  rw [operatorNew, operatorNew_ok_lookup hok]

/-- Witness for `C6_operator_interning`: the name `add` after the lookup
sequence `["lt", "add"]`. -/
theorem C6_operator_interning_witness :
    "add" ∈ operatorClasses
    ∧ ∃ inst st2,
        operatorNew (runLookups emptyMemo ["lt", "add"]) "add" = .ok (inst, st2)
        ∧ operatorNew st2 "add" = .ok (inst, st2)
        ∧ (st2.memo.map Prod.fst).Nodup :=
  ⟨by decide, C6_operator_interning ["lt", "add"] "add" (by decide)⟩

/-- C7: the `hsm/errors` module defines no `NoSuchOperation` class, so
looking up an unregistered operator name executes
`raise errors.NoSuchOperation(...)` and fails with `AttributeError`
instead of the intended no-such-operator error (both from the empty
registry and after other lookups), while looking up a registered name
succeeds. -/
theorem C7_unregistered_lookup_attribute_error :
    "NoSuchOperation" ∉ errorsModuleClasses
    ∧ operatorNew emptyMemo "frobnicate" = .error (.attributeError "NoSuchOperation")
    ∧ operatorNew (runLookups emptyMemo ["add", "lt"]) "frobnicate"
        = .error (.attributeError "NoSuchOperation")
    ∧ operatorNew emptyMemo "add" = .ok (0, ⟨[("add", 0)], 1⟩) :=
  ⟨by decide, rfl, rfl, rfl⟩

/-- C8: after the whole `operators.py` module has registered (with `ge`
declaring `swapped = "le"` before `le` is defined and `le` declaring
`swapped = "ge"`), the linkage is one-directional: `le._swapped_cls`
resolves to `ge`, but `ge._swapped_cls` remains `None` — the resolver
wrote to the attributes `swapped_cls`/`swapped_name` on the partner,
which nothing reads — and `ge.swapped` still holds the dangling name
string.  The same holds for the `gt`/`lt` pair. -/
theorem C8_swapped_linkage_one_directional :
    (finalOperatorReg.lookup "le").map (fun st => st.swappedClsLink) = some (some "ge")
    ∧ (finalOperatorReg.lookup "ge").map (fun st => st.swappedClsLink) = some none
    ∧ (finalOperatorReg.lookup "ge").map (fun st => st.swapped) = some (some "le")
    ∧ (finalOperatorReg.lookup "ge").map (fun st => st.straySwappedClsAttr)
        = some (some "le")
    ∧ (finalOperatorReg.lookup "lt").map (fun st => st.swappedClsLink) = some (some "gt")
    ∧ (finalOperatorReg.lookup "gt").map (fun st => st.swappedClsLink) = some none := by
  decide

/-- C9: `Symbol.from_string` honours the leading-minus convention — for a
plain name (no parentheses, not starting with a minus) prefixed by `n`
minus signs, the parsed symbol's negate flag is set iff `n` is odd, with
no warning; a paired pair of surrounding parentheses is stripped; and a
string with unbalanced parentheses still parses successfully into a
symbol, with the warning flag set instead of an error. -/
theorem C9_from_string_negation_parens_warning (n : Nat) (name : List Char) (s : String)
    (hp1 : '(' ∉ name) (hp2 : ')' ∉ name) (hm : name.head? ≠ some '-')
    (hs : s.data.count '(' ≠ s.data.count ')') :
    fromString (String.mk (List.replicate n '-' ++ name))
      = some (⟨String.mk name, n % 2 == 1⟩, false)
    ∧ fromString (String.mk ('(' :: (name ++ [')'])))
      = some (⟨String.mk name, false⟩, false)
    ∧ ∃ r : PySymbol, fromString s = some (r, true) :=
  ⟨fromString_leading_minuses n name hp1 hp2 hm,
   fromString_paired_parens name hp1 hp2 hm,
   fromString_unbalanced s hs⟩

/-- Witness for `C9_from_string_negation_parens_warning`: the name `x`
with three minus signs parses negated, `(x)` parses to `x`, and the
unbalanced `"(x"` parses with a warning. -/
theorem C9_from_string_negation_parens_warning_witness :
    ('(' ∉ ['x']) ∧ (')' ∉ ['x']) ∧ (['x'].head? ≠ some '-')
    ∧ ("(x".data.count '(' ≠ "(x".data.count ')')
    ∧ (fromString (String.mk (List.replicate 3 '-' ++ ['x']))
        = some (⟨String.mk ['x'], 3 % 2 == 1⟩, false)
      ∧ fromString (String.mk ('(' :: (['x'] ++ [')'])))
        = some (⟨String.mk ['x'], false⟩, false)
      ∧ ∃ r : PySymbol, fromString "(x" = some (r, true)) :=
  ⟨by decide, by decide, by decide, by decide,
   C9_from_string_negation_parens_warning 3 ['x'] "(x"
     (by decide) (by decide) (by decide) (by decide)⟩

/-- C10: applying the `==` operator to any two operand nodes never yields
a boolean: for every pair of nodes, `Operator('eq').__call__` returns an
operation node (atomic or compound, never an atom) whose operator is
`eq`, so structural equality of two trees cannot be observed through
`==`. -/
theorem C10_eq_constructs_operation_node (o1 o2 : Operand) :
    ((operatorCall eqOp o1 (some o2)).isO || (operatorCall eqOp o1 (some o2)).isCO) = true
    ∧ (operatorCall eqOp o1 (some o2)).operatorName = some "eq" := by
  obtain ⟨args, h | h⟩ := operatorCallBinary_shape eqOp o1 o2
  · rw [show operatorCall eqOp o1 (some o2) = operatorCallBinary eqOp o1 o2 from rfl, h]
    exact ⟨rfl, rfl⟩
  · rw [show operatorCall eqOp o1 (some o2) = operatorCallBinary eqOp o1 o2 from rfl, h]
    exact ⟨rfl, rfl⟩
